import Mathlib

/-!
Shallow embedding of `src/thesis_downloader.py` (the row-processing pipeline
of the DSpace theses ingest proof of concept) and verification of the frozen
claims about its specification.

Python strings are modelled as `List Char`.  Fallible Python operations
(indexing a list with a non-integer, unpacking a split into three names,
`int()` conversion, popping from an empty list) are modelled with
`Except String`, the error string naming the Python exception class.
External effects (the filesystem, the network, the MD5 of the downloaded
file) are supplied through an explicit `RowEnv` environment value.
-/

namespace Thesis

/-- Lowercasing, as Python `str.lower` on ASCII text (`Char.toLower` agrees
with Python on the ASCII range, which is the range exercised here). -/
def lowerL (l : List Char) : List Char := l.map Char.toLower

/-- Python `str.strip()`: drop whitespace from both ends. -/
def trimWs (l : List Char) : List Char :=
  ((l.dropWhile Char.isWhitespace).reverse.dropWhile Char.isWhitespace).reverse

/-- Split a character list at every character satisfying `p`, keeping empty
pieces, as Python `str.split(sep)` does for a one-character separator. -/
def splitP (p : Char → Bool) : List Char → List (List Char)
  | [] => [[]]
  | c :: rest =>
    if p c then [] :: splitP p rest
    else
      match splitP p rest with
      | [] => [[c]]
      | q :: qs => (c :: q) :: qs

/-- Python `s.split(sep)` for a one-character separator. -/
def pySplitChar (sep : Char) (l : List Char) : List (List Char) :=
  splitP (fun c => c == sep) l

/-- Python `s.split()` with no argument: split on whitespace runs and drop
empty pieces. -/
def pySplitWs (l : List Char) : List (List Char) :=
  (splitP Char.isWhitespace l).filter (fun x => !x.isEmpty)

/-- Join pieces with a single separator character (Python `sep.join`). -/
def joinSep (sep : Char) : List (List Char) → List Char
  | [] => []
  | [p] => p
  | p :: ps => p ++ sep :: joinSep sep ps

/-- Python `m, d, y = s.split('/')`: succeeds only when the split yields
exactly three pieces, otherwise `ValueError`. -/
def split3 (l : List Char) : Except String (List Char × List Char × List Char) :=
  match pySplitChar '/' l with
  | [m, d, y] => Except.ok (m, d, y)
  | _ => Except.error "ValueError"

/-- Digits of a decimal numeral, or `none` when the list is empty or holds a
non-digit. -/
def digitsToNat? (l : List Char) : Option Nat :=
  if l ≠ [] ∧ l.all Char.isDigit then
    some (l.foldl (fun a c => a * 10 + (c.toNat - 48)) 0)
  else none

/-- Python `int(s)`: strip whitespace, allow one leading sign, then require a
nonempty run of decimal digits; otherwise `ValueError`. -/
def pyInt (l : List Char) : Except String Int :=
  match trimWs l with
  | '-' :: r =>
    match digitsToNat? r with
    | some n => Except.ok (-(n : Int))
    | none => Except.error "ValueError"
  | '+' :: r =>
    match digitsToNat? r with
    | some n => Except.ok (n : Int)
    | none => Except.error "ValueError"
  | r =>
    match digitsToNat? r with
    | some n => Except.ok (n : Int)
    | none => Except.error "ValueError"

/-- Python `f"{n:02d}"`: decimal rendering left-padded with `0` to width 2. -/
def pad2 (n : Int) : List Char :=
  let s := (toString n).toList
  if s.length < 2 then '0' :: s else s

/-- The fallback filename `f"file_{idx}.pdf"` of line 114. -/
def fileIdx (idx : Nat) : List Char :=
  (String.toList "file_") ++ (toString idx).toList ++ (String.toList ".pdf")

/-- Python `s.replace(a, rep)` for a one-character pattern `a`. -/
def repl1 (a : Char) (rep : List Char) : List Char → List Char
  | [] => []
  | c :: rest => (if c = a then rep else [c]) ++ repl1 a rep rest

/-- Python `s.replace(ab, rep)` for a two-character pattern `a b`:
non-overlapping occurrences, scanned left to right. -/
def repl2 (a b : Char) (rep : List Char) : List Char → List Char
  | c :: d :: rest =>
    if c = a ∧ d = b then rep ++ repl2 a b rep rest
    else c :: repl2 a b rep (d :: rest)
  | l => l

/-- Python `s.replace(abc, rep)` for a three-character pattern `a b c`:
non-overlapping occurrences, scanned left to right. -/
def repl3 (a b c : Char) (rep : List Char) : List Char → List Char
  | x :: y :: z :: rest =>
    if x = a ∧ y = b ∧ z = c then rep ++ repl3 a b c rep rest
    else x :: repl3 a b c rep (y :: z :: rest)
  | l => l

/-- Backslash escaping of lines 127/129/131:
`v.replace(chr(92), chr(92)*2)` doubles every backslash. -/
def escBackslash (v : List Char) : List Char := repl1 '\\' ['\\', '\\'] v

/-- Keyword re-delimiting of line 133: first the three-character pattern
pipe-hash-pipe becomes a pipe, then every comma-space becomes a pipe. -/
def keywordsT (v : List Char) : List Char :=
  repl2 ',' ' ' ['|'] (repl3 '|' '#' '|' ['|'] v)

/-- Supervisor-info re-delimiting of line 135: the three-character pattern
pipe-hash-pipe becomes a pipe. -/
def supervisorT (v : List Char) : List Char := repl3 '|' '#' '|' ['|'] v

/-- Lines 98-104: derive the author token from the raw "Author" value.
Strip; when no comma is present, split on whitespace, pop the last token
(IndexError when there is none) and re-insert it in front with a trailing
comma, joining with single spaces; then normalize comma spacing and turn
the result into an underscore-separated token without periods. -/
def authorFromValue (v : List Char) : Except String (List Char) := do
  let t := trimWs v
  let names ←
    if ',' ∈ t then Except.ok t
    else
      match (pySplitWs t).reverse with
      | [] => Except.error "IndexError"
      | lastTok :: revInit =>
        Except.ok (joinSep ' ' ((lastTok ++ [',']) :: revInit.reverse))
  let names := repl2 ' ' ' ' [' '] (repl1 ',' [',', ' '] names)
  Except.ok (repl1 '.' [] (repl1 ' ' ['_'] (repl2 ',' ' ' [' '] names)))

/-- Line 95: `item_index = {h: i for i, h in enumerate(headers)}` followed by
`item_index.get(h, default)`.  A Python dict comprehension keeps the last
index for a duplicated header, hence the recursion prefers the tail. -/
def item_index (headers : List String) (h : String) : Option Nat :=
  match headers with
  | [] => none
  | x :: rest =>
    match item_index rest h with
    | some j => some (j + 1)
    | none => if x = h then some 0 else none

/-- Python `line[i]` where `i` is the result of `item_index.get(h, "")`:
indexing a list with the default string raises TypeError, an out-of-range
integer raises IndexError. -/
def pyGet (line : List (List Char)) : Option Nat → Except String (List Char)
  | none => Except.error "TypeError"
  | some i =>
    match line.get? i with
    | some v => Except.ok v
    | none => Except.error "IndexError"

/-- Python `line[i] = v` under the same indexing discipline as `pyGet`. -/
def pySet (line : List (List Char)) (oi : Option Nat) (v : List Char) :
    Except String (List (List Char)) :=
  match oi with
  | none => Except.error "TypeError"
  | some i =>
    if i < line.length then Except.ok (line.set i v)
    else Except.error "IndexError"

/-- The degree-name to abbreviation table of lines 32-42. -/
def degree_map : List (List Char × List Char) :=
  [ (String.toList "Master of Nursing", String.toList "MN"),
    (String.toList "Master of Arts", String.toList "MA"),
    (String.toList "Master of Laws", String.toList "LLM"),
    (String.toList "Doctor of Education", String.toList "DEd"),
    (String.toList "Doctor of Music", String.toList "DM"),
    (String.toList "Master of Arts/Master of Library and Information Studies",
      String.toList "MAMLIS"),
    (String.toList "Doctor of Philosophy", String.toList "PhD"),
    (String.toList "Master of Science", String.toList "MSc"),
    (String.toList "Master of Education", String.toList "MEd") ]

/-- Line 110: `degree_map.get(degree_val, "UNK")`. -/
def degreeAbbrev (dv : List Char) : List Char :=
  (degree_map.lookup dv).getD (String.toList "UNK")

/-- The language map of line 43; defined but, as in the source, never used
by the pipeline. -/
def language_map : List (List Char × List Char) :=
  [ (String.toList "eng", String.toList "english"),
    (String.toList "fre", String.toList "french") ]

/-- Lines 106-114, value level: from the author token, the raw
"Submitted Date" value, the (lazily consulted) "Degree" value and the
running row index, compute the derived filename together with the value
written back into the "Submitted Date" field.  `uni` stands for the
external `unidecode.unidecode` transliteration applied on line 111. -/
def submittedBlock (uni : List Char → List Char) (author sd : List Char)
    (degreeVal : Except String (List Char)) (idx : Nat) :
    Except String (List Char × List Char) :=
  if sd ≠ [] ∧ '/' ∈ sd then do
    let mdy ← split3 sd
    let dv ← degreeVal
    let n ← pyInt mdy.1
    let base := author ++ ['_'] ++ mdy.2.2 ++ pad2 n ++ ['_']
        ++ degreeAbbrev dv ++ (String.toList ".pdf")
    Except.ok (uni (repl2 '_' '_' ['_'] base),
      mdy.1 ++ ['/'] ++ mdy.2.1 ++ ['/'] ++ mdy.2.2)
  else Except.ok (fileIdx idx, sd)

/-- Lines 116-124, value level: a nonempty slash-containing date value is
split into exactly three parts (ValueError otherwise) and reassembled as
`f"{m}/{d}/{y}"`; any other value passes through unchanged. -/
def rewriteSlashDate (v : List Char) : Except String (List Char) :=
  if v ≠ [] ∧ '/' ∈ v then
    (split3 v).map (fun mdy => mdy.1 ++ ['/'] ++ mdy.2.1 ++ ['/'] ++ mdy.2.2)
  else Except.ok v

/-- Lines 148-154, comparison level: lowercase the expected digest taken
from the row and compare with the lowercased actual digest; the flag is 1
exactly when the expected digest is nonempty and the two agree. -/
def verifyFlag (expectedRaw actualRaw : List Char) : Nat :=
  if lowerL expectedRaw ≠ [] ∧ lowerL expectedRaw = lowerL actualRaw then 1 else 0

/-- Responses of the external world to the effects a row can perform:
the two `os.path.exists` probes, the download outcome, and the MD5 digest
computed from the downloaded file. -/
structure RowEnv where
  fileExists : Bool
  downloadOk : Bool
  existsAfter : Bool
  actualMd5 : List Char
deriving DecidableEq, Repr

/-- Lines 139-154: the md5/download block.  Returns the `md5_valid` flag
together with whether a download was attempted. -/
def md5Block (headers : List String) (line : List (List Char)) (env : RowEnv)
    (url : List Char) : Except String (Nat × Bool) :=
  if url ≠ [] then
    let attempted := !env.fileExists
    let success := if env.fileExists then true else env.downloadOk
    if success ∧ env.existsAfter then do
      let raw ← pyGet line (item_index headers " MD5")
      Except.ok (verifyFlag raw env.actualMd5, attempted)
    else Except.ok (0, attempted)
  else Except.ok (0, false)

/-- Everything the loop body of lines 87-156 produces for one row. -/
structure RowResult where
  idx : Nat
  filename : List Char
  outputRow : List (List Char)
  md5Valid : Nat
  downloadAttempted : Bool
deriving DecidableEq, Repr

/-- Lines 95-156: process one row.  `row` is the `csv.DictReader` record as
an association list; `line` is rebuilt from it in header order exactly as on
line 96.  The final `RowResult.outputRow` is the row passed to
`writer.writerow([filename] + line)` on line 156. -/
def processRow (uni : List Char → List Char) (headers : List String)
    (row : List (String × List Char)) (idx : Nat) (env : RowEnv) :
    Except String RowResult := do
  let line : List (List Char) := headers.map (fun h => (List.lookup h row).getD [])
  let names0 ← pyGet line (item_index headers "Author")
  let author ← authorFromValue names0
  let sd ← pyGet line (item_index headers "Submitted Date")
  let fnSd ← submittedBlock uni author sd
      (pyGet line (item_index headers "Degree")) idx
  let line ←
    if sd ≠ [] ∧ '/' ∈ sd then
      pySet line (item_index headers "Submitted Date") fnSd.2
    else Except.ok line
  let ad ← pyGet line (item_index headers "Approved Date")
  let ad2 ← rewriteSlashDate ad
  let line ←
    if ad ≠ [] ∧ '/' ∈ ad then
      pySet line (item_index headers "Approved Date") ad2
    else Except.ok line
  let ed ← pyGet line (item_index headers "Date of Embargo")
  let ed2 ← rewriteSlashDate ed
  let line ←
    if ed ≠ [] ∧ '/' ∈ ed then
      pySet line (item_index headers "Date of Embargo") ed2
    else Except.ok line
  let line := applyAt headers line "Abstract" escBackslash
  let line := applyAt headers line "Title" escBackslash
  let line := applyAt headers line "Other Titles" escBackslash
  let line := applyAt headers line "Keywords" keywordsT
  let line := applyAt headers line "Supervisor Info" supervisorT
  let dl ← pyGet line (item_index headers "Download Link")
  let mv ← md5Block headers line env (trimWs dl)
  Except.ok ⟨idx, fnSd.1, fnSd.1 :: line, mv.1, mv.2⟩
where
  /-- Lines 126-135: apply a field transform in place when the column is
  present (the guard `item_index.get(h, None) is not None`). -/
  applyAt (headers : List String) (line : List (List Char)) (h : String)
      (f : List Char → List Char) : List (List Char) :=
    match item_index headers h with
    | none => line
    | some i => line.set i (f (line.getD i []))

/-- Lines 87-93 around the body: iterate the reader with `enumerate`,
skipping rows before the offset, breaking once a positive limit is
exhausted, and collecting the results of the processed rows in order.
An uncaught exception from the body aborts the whole run, as in the
source, where no try/except surrounds the loop body. -/
def runLoop (uni : List Char → List Char) (headers : List String)
    (world : Nat → RowEnv) (offset limit : Nat) :
    Nat → List (List (String × List Char)) → Except String (List RowResult)
  | _, [] => Except.ok []
  | idx, r :: rest =>
    if idx < offset then runLoop uni headers world offset limit (idx + 1) rest
    else if 0 < limit ∧ offset + limit ≤ idx then Except.ok []
    else
      (processRow uni headers r idx (world idx)).bind fun res =>
        (runLoop uni headers world offset limit (idx + 1) rest).map
          fun others => res :: others

/-- Line 85: the header row `["filename"] + headers + ["md5_valid"]`. -/
def headerRow (headers : List String) : List (List Char) :=
  (String.toList "filename") :: headers.map String.toList
    ++ [String.toList "md5_valid"]

/-- Lines 83-157: the rows written to the output CSV — the header row
first, then one row per processed record. -/
def outputCsv (uni : List Char → List Char) (headers : List String)
    (world : Nat → RowEnv) (offset limit : Nat)
    (rows : List (List (String × List Char))) :
    Except String (List (List (List Char))) :=
  (runLoop uni headers world offset limit 0 rows).map
    fun rs => headerRow headers :: rs.map RowResult.outputRow

/-- Modelled from the spec: the external `unidecode.unidecode`
transliteration is not part of this repository; section 4.2 of the
specification describes it as transliterating non-ASCII characters to their
closest ASCII equivalents, so it is the identity on ASCII input.  Every
filename exercised by the claims is pure ASCII, where the identity is the
faithful model. -/
def asciiUnidecode : List Char → List Char := fun l => l

/-! ### Concrete fixtures used by the claim theorems -/

/-- Header list of a minimal well-formed input table: exactly the columns the
loop body reads unconditionally. -/
def hdrsStd : List String :=
  ["Author", "Submitted Date", "Approved Date", "Date of Embargo", "Download Link"]

/-- Header list of a table that also carries a "Degree" column, needed by
rows whose "Submitted Date" is slash-delimited. -/
def hdrsDated : List String :=
  ["Author", "Submitted Date", "Degree", "Approved Date", "Date of Embargo",
   "Download Link"]

/-- Header list of a table with a download link column and the checksum
column spelled " MD5" with its leading space, as the source expects. -/
def hdrsMd5 : List String :=
  ["Author", "Submitted Date", "Approved Date", "Date of Embargo",
   "Download Link", " MD5"]

/-- A plain row: two-token author, all other fields empty. -/
def rowStd : List (String × List Char) :=
  [("Author", String.toList "A B"), ("Submitted Date", []), ("Approved Date", []),
   ("Date of Embargo", []), ("Download Link", [])]

/-- The row of the specification example: author "Doe John" (no comma),
submitted 3/5/2021, degree Master of Science. -/
def rowDoeJohn : List (String × List Char) :=
  [("Author", String.toList "Doe John"),
   ("Submitted Date", String.toList "3/5/2021"),
   ("Degree", String.toList "Master of Science"),
   ("Approved Date", []), ("Date of Embargo", []), ("Download Link", [])]

/-- A row whose submitted date contains a single slash. -/
def rowBadDate : List (String × List Char) :=
  [("Author", String.toList "Doe John"),
   ("Submitted Date", String.toList "3/2021"),
   ("Degree", String.toList "Master of Science"),
   ("Approved Date", []), ("Date of Embargo", []), ("Download Link", [])]

/-- A row whose submitted date has three slash-separated parts but a
non-numeric month. -/
def rowBadMonth : List (String × List Char) :=
  [("Author", String.toList "Doe John"),
   ("Submitted Date", String.toList "ab/cd/2021"),
   ("Degree", String.toList "Master of Science"),
   ("Approved Date", []), ("Date of Embargo", []), ("Download Link", [])]

/-- A row whose submitted date holds no slash at all. -/
def rowMarch : List (String × List Char) :=
  [("Author", String.toList "A B"),
   ("Submitted Date", String.toList "March 2021"),
   ("Degree", []), ("Approved Date", []), ("Date of Embargo", []),
   ("Download Link", [])]

/-- A row with a zero-padded approved date. -/
def rowPadded : List (String × List Char) :=
  [("Author", String.toList "A B"), ("Submitted Date", []),
   ("Approved Date", String.toList "03/05/2021"),
   ("Date of Embargo", []), ("Download Link", [])]

/-- A row with a zero-padded submitted date (table with a Degree column). -/
def rowPaddedSD : List (String × List Char) :=
  [("Author", String.toList "A B"),
   ("Submitted Date", String.toList "03/05/2021"),
   ("Degree", String.toList "Doctor of Philosophy"),
   ("Approved Date", []), ("Date of Embargo", []), ("Download Link", [])]

/-- A row whose "Author" value is the empty string. -/
def rowEmptyAuthor : List (String × List Char) :=
  [("Author", []), ("Submitted Date", []), ("Approved Date", []),
   ("Date of Embargo", []), ("Download Link", [])]

/-- A row with a slash-delimited date in a table without a "Degree"
column (`hdrsStd`). -/
def rowDatedNoDeg : List (String × List Char) :=
  [("Author", String.toList "A B"),
   ("Submitted Date", String.toList "3/5/2021"),
   ("Approved Date", []), ("Date of Embargo", []), ("Download Link", [])]

/-- A row carrying a download link and an (uppercase) expected digest in
the " MD5" column. -/
def rowMd5 : List (String × List Char) :=
  [("Author", String.toList "A B"), ("Submitted Date", []), ("Approved Date", []),
   ("Date of Embargo", []), ("Download Link", String.toList "http://x"),
   (" MD5", String.toList "ABC")]

/-- An environment for rows that never reach the download block. -/
def envN : RowEnv := ⟨false, false, false, []⟩

/-- An environment where the destination file already exists and hashes to
"abc": no download is attempted and the digest matches `rowMd5`. -/
def envHit : RowEnv := ⟨true, false, true, String.toList "abc"⟩

/-- The final `line` value of `rowMd5` as written to the output file. -/
def lineMd5Out : List (List Char) :=
  [String.toList "A B", [], [], [], String.toList "http://x", String.toList "ABC"]

/-! ### Supporting lemmas -/

theorem bindE_error {ε α β : Type} (e : ε) (f : α → Except ε β) :
    (Except.error e : Except ε α) >>= f = Except.error e := rfl

theorem bindE_ok {ε α β : Type} (a : α) (f : α → Except ε β) :
    (Except.ok a : Except ε α) >>= f = f a := rfl

theorem mapE_error {ε α β : Type} (f : α → β) (e : ε) :
    (Except.error e : Except ε α).map f = Except.error e := rfl

theorem mapE_ok {ε α β : Type} (f : α → β) (a : α) :
    (Except.ok a : Except ε α).map f = Except.ok (f a) := rfl

theorem repl1_id_of_not_mem (a : Char) (rep : List Char) (v : List Char)
    (h : a ∉ v) : repl1 a rep v = v := by
  induction v with
  | nil => rfl
  | cons c rest ih =>
    simp only [repl1]
    rw [if_neg (by simp at h; exact fun he => h.1 he.symm)]
    rw [ih (by simp at h; exact h.2)]
    rfl

theorem repl3_id_of_not_mem (a b c : Char) (rep : List Char) (v : List Char)
    (h : b ∉ v) : repl3 a b c rep v = v := by
  induction v using repl3.induct a b c rep with
  | case1 x y z rest hcond ih =>
    exact absurd hcond.2.1 (by simp at h; exact fun he => h.2.1 he.symm)
  | case2 x y z rest hcond ih =>
    simp only [repl3, if_neg hcond]
    rw [ih (by simp at h ⊢; exact ⟨h.2.1, h.2.2⟩)]
  | case3 l hl => simp only [repl3]

theorem repl2_cons_ne (a b : Char) (rep : List Char) (c : Char) (X : List Char)
    (h : c ≠ a) : repl2 a b rep (c :: X) = c :: repl2 a b rep X := by
  cases X with
  | nil => simp [repl2]
  | cons d t => simp only [repl2]; rw [if_neg (fun hc => h hc.1)]

theorem repl2_head (a b e0 d : Char) (rest : List Char) :
    (repl2 a b [e0] (d :: rest)).head? = some e0 ∨
      (repl2 a b [e0] (d :: rest)).head? = some d := by
  cases rest with
  | nil => right; simp [repl2]
  | cons x t =>
    simp only [repl2]
    split
    · left; rfl
    · right; rfl

theorem rcs_idem (v : List Char) :
    repl2 ',' ' ' ['|'] (repl2 ',' ' ' ['|'] v) = repl2 ',' ' ' ['|'] v := by
  induction v using repl2.induct ',' ' ' ['|'] with
  | case1 c d rest hcond ih =>
    simp only [repl2, if_pos hcond, List.singleton_append]
    rw [repl2_cons_ne _ _ _ _ _ (by decide), ih]
  | case2 c d rest hcond ih =>
    simp only [repl2, if_neg hcond]
    cases hX : repl2 ',' ' ' ['|'] (d :: rest) with
    | nil => simp [repl2]
    | cons e t =>
      rw [hX] at ih
      have hne : ¬(c = ',' ∧ e = ' ') := by
        by_cases hc : c = ','
        · have hd : d ≠ ' ' := fun hd => hcond ⟨hc, hd⟩
          have he : e = '|' ∨ e = d := by
            rcases repl2_head ',' ' ' '|' d rest with hh | hh <;>
              rw [hX] at hh <;> simp at hh <;> simp [hh]
          rcases he with he | he <;> subst he
          · exact fun q => by cases q.2
          · exact fun q => hd q.2
        · exact fun q => hc q.1
      simp only [repl2, if_neg hne]
      rw [ih]
  | case3 l hl =>
    rcases l with _ | ⟨x, _ | ⟨y, ys⟩⟩
    · rfl
    · rfl
    · exact absurd rfl (hl x y ys)

theorem repl2_mem (a b e0 : Char) (v : List Char) :
    ∀ x : Char, x ∈ repl2 a b [e0] v → x = e0 ∨ x ∈ v := by
  induction v using repl2.induct a b [e0] with
  | case1 c d rest hcond ih =>
    intro x hx
    simp only [repl2, if_pos hcond, List.singleton_append, List.mem_cons] at hx
    rcases hx with hx | hx
    · exact Or.inl hx
    · rcases ih x hx with h | h
      · exact Or.inl h
      · exact Or.inr (by simp [h])
  | case2 c d rest hcond ih =>
    intro x hx
    simp only [repl2, List.mem_cons, if_neg hcond] at hx
    rcases hx with hx | hx
    · exact Or.inr (by simp [hx])
    · rcases ih x hx with h | h
      · exact Or.inl h
      · exact Or.inr (by simp at h ⊢; tauto)
  | case3 l hl =>
    rcases l with _ | ⟨x1, _ | ⟨y, ys⟩⟩
    · exact fun x hx => Or.inr hx
    · exact fun x hx => Or.inr hx
    · exact absurd rfl (hl x1 y ys)

theorem splitP_ne_nil (p : Char → Bool) (l : List Char) : splitP p l ≠ [] := by
  cases l with
  | nil => simp [splitP]
  | cons c rest =>
    simp only [splitP]
    split
    · simp
    · split <;> simp

theorem joinSep_cons_cons (sep c : Char) (q : List Char) (qs : List (List Char)) :
    joinSep sep ((c :: q) :: qs) = c :: joinSep sep (q :: qs) := by
  cases qs <;> simp [joinSep]

theorem joinSep_pySplitChar (sep : Char) (l : List Char) :
    joinSep sep (pySplitChar sep l) = l := by
  induction l with
  | nil => rfl
  | cons c rest ih =>
    simp only [pySplitChar, splitP] at *
    by_cases hc : c = sep
    · simp only [hc, beq_self_eq_true, if_true]
      cases hs : splitP (fun x => x == sep) rest with
      | nil => exact absurd hs (splitP_ne_nil _ _)
      | cons q qs =>
        rw [hs] at ih
        simp [joinSep, ← ih]
    · cases hs : splitP (fun x => x == sep) rest with
      | nil => exact absurd hs (splitP_ne_nil _ _)
      | cons q qs =>
        rw [hs] at ih
        simp only [show (c == sep) = false by simp [hc], Bool.false_eq_true, if_false]
        rw [joinSep_cons_cons, ih]

theorem item_index_of_not_mem (headers : List String) (h : String)
    (hm : h ∉ headers) : item_index headers h = none := by
  induction headers with
  | nil => rfl
  | cons x rest ih =>
    simp only [item_index]
    rw [ih (by simp at hm; exact hm.2)]
    rw [if_neg (by simp at hm; exact fun he => hm.1 he.symm)]

theorem verifyFlag_cases (e a : List Char) :
    verifyFlag e a = 0 ∨ verifyFlag e a = 1 := by
  unfold verifyFlag
  split
  · exact Or.inr rfl
  · exact Or.inl rfl

theorem md5Block_ok_one (headers : List String) (line : List (List Char))
    (env : RowEnv) (url : List Char) (n : Nat) (att : Bool)
    (hok : md5Block headers line env url = Except.ok (n, att)) (h1 : n = 1) :
    ∃ i, item_index headers " MD5" = some i ∧
      verifyFlag (line.getD i []) env.actualMd5 = 1 := by
  subst h1
  obtain ⟨fe, dl, ea, am⟩ := env
  simp only [md5Block] at hok
  cases hi : item_index headers " MD5" with
  | none =>
    rw [hi] at hok
    cases fe <;> cases dl <;> cases ea <;> simp [pyGet, bindE_error, bindE_ok] at hok <;>
      split at hok <;> simp at hok
  | some i =>
    rw [hi] at hok
    simp only [pyGet] at hok
    cases hg : line.get? i with
    | none =>
      rw [hg] at hok
      cases fe <;> cases dl <;> cases ea <;> simp [bindE_error, bindE_ok] at hok <;>
        split at hok <;> simp at hok
    | some v =>
      rw [hg] at hok
      refine ⟨i, rfl, ?_⟩
      have hv : line.getD i [] = v := by
        simp only [List.getD]
        simp only [List.get?_eq_getElem?] at hg
        simp [hg]
      rw [hv]
      cases fe <;> cases dl <;> cases ea <;>
        simp [bindE_error, bindE_ok] at hok <;> try split at hok <;> simp at hok
      all_goals simp_all

theorem md5Block_flag_cases (headers : List String) (line : List (List Char))
    (env : RowEnv) (url : List Char) (n : Nat) (att : Bool)
    (hok : md5Block headers line env url = Except.ok (n, att)) :
    n = 0 ∨ n = 1 := by
  unfold md5Block pyGet at hok
  repeat' first
    | split at hok
    | simp only [bindE_error, bindE_ok] at hok
  all_goals try simp at hok
  all_goals first
    | exact Or.inl hok.1.symm
    | exact Or.inl hok.1
    | (rw [← hok.1]; exact verifyFlag_cases _ _)

/-! ### Claim theorems -/

/-- C1 (code bug): the header row written on line 85 announces a final
`md5_valid` column, but the data row written on line 156 is
`[filename] + line` — the computed `md5_valid` flag is never written.  On a
row whose digest verifies (flag 1), the output file holds the header row
followed by a data row that is one column shorter than the header and
contains no flag. -/
theorem c1_data_row_omits_md5_valid :
    outputCsv asciiUnidecode hdrsMd5 (fun _ => envHit) 0 0 [rowMd5] =
        Except.ok [headerRow hdrsMd5, (String.toList "file_0.pdf") :: lineMd5Out] ∧
      (runLoop asciiUnidecode hdrsMd5 (fun _ => envHit) 0 0 0 [rowMd5]).map
          (fun rs => rs.map RowResult.md5Valid) = Except.ok [1] ∧
      (headerRow hdrsMd5).length =
        ((String.toList "file_0.pdf") :: lineMd5Out).length + 1 :=
  ⟨rfl, rfl, rfl⟩

/-- C2 counterexample: on the claim input (Author "Doe John", submitted
3/5/2021, degree Master of Science) the code does not produce the claimed
author token "Doe_John" nor the claimed filename
"Doe_John_202103_MSc.pdf". -/
theorem c2_author_token_counterexample :
    (processRow asciiUnidecode hdrsDated rowDoeJohn 0 envN).map RowResult.filename ≠
        Except.ok (String.toList "Doe_John_202103_MSc.pdf") ∧
      authorFromValue (String.toList "Doe John") ≠
        Except.ok (String.toList "Doe_John") := by
  constructor
  · intro h
    have hv : (processRow asciiUnidecode hdrsDated rowDoeJohn 0 envN).map
        RowResult.filename = Except.ok (String.toList "John_Doe_202103_MSc.pdf") := rfl
    rw [hv] at h
    exact absurd (Except.ok.inj h) (by decide)
  · intro h
    have hv : authorFromValue (String.toList "Doe John") =
        Except.ok (String.toList "John_Doe") := rfl
    rw [hv] at h
    exact absurd (Except.ok.inj h) (by decide)

/-- C2 amended: a comma-free author "Doe John" has its last token moved to
the front (lines 100-102), giving author token "John_Doe" and filename
"John_Doe_202103_MSc.pdf" for submitted date 3/5/2021 and degree
Master of Science. -/
theorem c2_author_token_amended :
    (processRow asciiUnidecode hdrsDated rowDoeJohn 0 envN).map RowResult.filename =
        Except.ok (String.toList "John_Doe_202103_MSc.pdf") ∧
      authorFromValue (String.toList "Doe John") =
        Except.ok (String.toList "John_Doe") :=
  ⟨rfl, rfl⟩

/-- C3 counterexample: a submitted date with a single slash ("3/2021")
raises ValueError at the three-way unpack of line 108, a slash-delimited
date with a non-numeric month ("ab/cd/2021") raises ValueError at `int(m)`
of line 110, and either exception aborts the whole run — the row is not
recorded and later rows are not reached. -/
theorem c3_malformed_date_counterexample :
    processRow asciiUnidecode hdrsDated rowBadDate 0 envN =
        Except.error "ValueError" ∧
      processRow asciiUnidecode hdrsDated rowBadMonth 0 envN =
        Except.error "ValueError" ∧
      runLoop asciiUnidecode hdrsDated (fun _ => envN) 0 0 0
          [rowBadDate, rowDoeJohn] = Except.error "ValueError" :=
  ⟨rfl, rfl, rfl⟩

/-- C3 amended: only a date field containing no slash at all is tolerated:
it passes through unchanged with no exception, the filename falls back to
the index-based form, and the row is still recorded.  A slash-containing
malformed date raises an uncaught ValueError that is fatal to the run. -/
theorem c3_malformed_date_amended :
    (∀ (uni : List Char → List Char) (author : List Char)
        (dvE : Except String (List Char)) (idx : Nat) (v : List Char),
        '/' ∉ v → submittedBlock uni author v dvE idx =
          Except.ok (fileIdx idx, v)) ∧
      (∀ v : List Char, '/' ∉ v → rewriteSlashDate v = Except.ok v) ∧
      (processRow asciiUnidecode hdrsDated rowMarch 0 envN).map
          (fun r => (r.filename, r.outputRow.getD 2 [])) =
        Except.ok (fileIdx 0, String.toList "March 2021") := by
  refine ⟨?_, ?_, rfl⟩
  · intro uni author dvE idx v h
    simp [submittedBlock, h]
  · intro v h
    simp [rewriteSlashDate, h]

/-- C3 witness: the amended statement applied at the slash-free date
"March 2021". -/
theorem c3_malformed_date_witness :
    ('/' ∉ String.toList "March 2021") ∧
      submittedBlock asciiUnidecode (String.toList "X")
          (String.toList "March 2021") (Except.ok []) 4 =
        Except.ok (fileIdx 4, String.toList "March 2021") ∧
      rewriteSlashDate (String.toList "March 2021") =
        Except.ok (String.toList "March 2021") :=
  ⟨by decide, c3_malformed_date_amended.1 _ _ _ _ _ (by decide),
    c3_malformed_date_amended.2.1 _ (by decide)⟩

/-- C4 counterexample: the code has no "unknown" verdict distinct from
"invalid": an empty expected digest yields the same flag 0 as a genuine
mismatch. -/
theorem c4_verify_counterexample :
    verifyFlag [] (String.toList "abc123") = 0 ∧
      verifyFlag (String.toList "ABC123") (String.toList "DEF456") = 0 ∧
      verifyFlag [] (String.toList "abc123") =
        verifyFlag (String.toList "ABC123") (String.toList "DEF456") :=
  ⟨rfl, rfl, rfl⟩

/-- C4 amended: verification is two-valued.  The flag is 1 exactly on a
case-insensitive match with a nonempty expected digest; an empty expected
digest yields 0, indistinguishable from a mismatch. -/
theorem c4_verify_amended :
    (∀ a : List Char, verifyFlag [] a = 0) ∧
      verifyFlag (String.toList "ABC123") (String.toList "abc123") = 1 ∧
      verifyFlag (String.toList "ABC123") (String.toList "DEF456") = 0 ∧
      (∀ e a : List Char, verifyFlag e a = 0 ∨ verifyFlag e a = 1) :=
  ⟨fun _ => rfl, rfl, rfl, fun e a => verifyFlag_cases e a⟩

/-- C5 counterexample: with offset 1 the first processed row is the row at
source index 1 and its fallback filename is "file_1.pdf", not the
"file_0.pdf" the claim requires for the first row of the window. -/
theorem c5_fallback_index_counterexample :
    (runLoop asciiUnidecode hdrsStd (fun _ => envN) 1 0 0 [rowStd, rowStd]).map
        (fun rs => rs.map RowResult.filename) =
      Except.ok [String.toList "file_1.pdf"] ∧
    String.toList "file_1.pdf" ≠ String.toList "file_0.pdf" :=
  ⟨rfl, by decide⟩

/-- C5 amended: the fallback filename is `file_{idx}.pdf` where `idx` is
the 0-based `enumerate` index over the whole source table (line 87), not
the position inside the offset/limit window. -/
theorem c5_fallback_index_amended (uni : List Char → List Char) (idx : Nat)
    (env : RowEnv) :
    (processRow uni hdrsStd rowStd idx env).map RowResult.filename =
      Except.ok (fileIdx idx) := rfl

/-- C6 counterexample: the rewrite `f"{m}/{d}/{y}"` reassembles the split
parts unchanged, so the zero-padded "03/05/2021" stays "03/05/2021"
instead of becoming the claimed "3/5/2021". -/
theorem c6_date_rewrite_counterexample :
    rewriteSlashDate (String.toList "03/05/2021") =
        Except.ok (String.toList "03/05/2021") ∧
      String.toList "03/05/2021" ≠ String.toList "3/5/2021" :=
  ⟨rfl, by decide⟩

/-- C6 amended: the date rewrite is the identity on every value it
accepts — a slash-delimited date is split and reassembled with its original
components (padding preserved), and any other slash-containing value
raises ValueError; the rows below show the unchanged zero-padded value in
the written output for both the Approved Date and the Submitted Date
columns. -/
theorem c6_date_rewrite_amended :
    (∀ v : List Char, rewriteSlashDate v = Except.ok v ∨
        rewriteSlashDate v = Except.error "ValueError") ∧
      (processRow asciiUnidecode hdrsStd rowPadded 0 envN).map
          (fun r => r.outputRow.getD 3 []) =
        Except.ok (String.toList "03/05/2021") ∧
      (processRow asciiUnidecode hdrsDated rowPaddedSD 0 envN).map
          (fun r => r.outputRow.getD 2 []) =
        Except.ok (String.toList "03/05/2021") := by
  refine ⟨?_, rfl, rfl⟩
  intro v
  unfold rewriteSlashDate
  split
  · have hj := joinSep_pySplitChar '/' v
    unfold split3
    cases hps : pySplitChar '/' v with
    | nil => exact absurd hps (splitP_ne_nil _ _)
    | cons m t1 =>
      cases t1 with
      | nil => right; rfl
      | cons d t2 =>
        cases t2 with
        | nil => right; rfl
        | cons y t3 =>
          cases t3 with
          | nil =>
            left
            rw [hps] at hj
            rw [show joinSep '/' [m, d, y] =
              m ++ '/' :: (d ++ '/' :: y) from rfl] at hj
            simp [mapE_ok, hj]
          | cons w t4 => right; rfl
  · left; rfl

/-- C7 counterexample: none of the three field transforms is idempotent.
Doubling backslashes doubles again on a second pass, and the re-delimiting
transforms can create a fresh pipe-hash-pipe occurrence that only a second
pass collapses. -/
theorem c7_idempotence_counterexample :
    escBackslash (escBackslash ['\\']) ≠ escBackslash ['\\'] ∧
      keywordsT (keywordsT (String.toList "|#|#||")) ≠
        keywordsT (String.toList "|#|#||") ∧
      supervisorT (supervisorT (String.toList "|#|#||")) ≠
        supervisorT (String.toList "|#|#||") := by
  refine ⟨?_, ?_, ?_⟩ <;> decide

/-- C7 amended: the transforms are idempotent only on restricted inputs:
backslash escaping on backslash-free values, and the keyword and
supervisor-info re-delimiting transforms on values containing no hash
character. -/
theorem c7_idempotence_amended :
    (∀ v : List Char, '\\' ∉ v →
        escBackslash (escBackslash v) = escBackslash v) ∧
      (∀ v : List Char, '#' ∉ v →
        supervisorT (supervisorT v) = supervisorT v) ∧
      (∀ v : List Char, '#' ∉ v →
        keywordsT (keywordsT v) = keywordsT v) := by
  refine ⟨?_, ?_, ?_⟩
  · intro v h
    have hv : escBackslash v = v := repl1_id_of_not_mem _ _ v h
    rw [hv]
    exact hv
  · intro v h
    have hv : supervisorT v = v := repl3_id_of_not_mem _ _ _ _ v h
    rw [hv]
    exact hv
  · intro v h
    unfold keywordsT
    rw [repl3_id_of_not_mem _ _ _ _ v h]
    have hnotin : '#' ∉ repl2 ',' ' ' ['|'] v := by
      intro hmem
      rcases repl2_mem _ _ _ _ _ hmem with he | he
      · exact absurd he (by decide)
      · exact h he
    rw [repl3_id_of_not_mem _ _ _ _ _ hnotin]
    exact rcs_idem v

/-- C7 witness: the amended statement applied at concrete hash-free and
backslash-free values. -/
theorem c7_idempotence_witness :
    ('\\' ∉ String.toList "C. elegans") ∧
      escBackslash (escBackslash (String.toList "C. elegans")) =
        escBackslash (String.toList "C. elegans") ∧
      ('#' ∉ String.toList "cats, dogs|birds") ∧
      keywordsT (keywordsT (String.toList "cats, dogs|birds")) =
        keywordsT (String.toList "cats, dogs|birds") ∧
      supervisorT (supervisorT (String.toList "cats, dogs|birds")) =
        supervisorT (String.toList "cats, dogs|birds") :=
  ⟨by decide, c7_idempotence_amended.1 _ (by decide), by decide,
    c7_idempotence_amended.2.2 _ (by decide),
    c7_idempotence_amended.2.1 _ (by decide)⟩

/-- C8 counterexample: an empty "Author" value does not yield an empty
author token — `names.pop()` on the empty whitespace-split list raises
IndexError (line 101), which aborts processing of the row. -/
theorem c8_missing_fields_counterexample :
    authorFromValue [] = Except.error "IndexError" ∧
      processRow asciiUnidecode hdrsStd rowEmptyAuthor 0 envN =
        Except.error "IndexError" :=
  ⟨rfl, rfl⟩

/-- C8 amended: an empty author value raises IndexError; a missing
"Degree" column raises TypeError (line 109 indexes the line with the
default "" returned by `item_index.get`); only a present Degree column
whose value is outside the degree table degrades to the literal "UNK". -/
theorem c8_missing_fields_amended :
    authorFromValue [] = Except.error "IndexError" ∧
      processRow asciiUnidecode hdrsStd rowDatedNoDeg 0 envN =
        Except.error "TypeError" ∧
      (∀ dv : List Char, degree_map.lookup dv = none →
        degreeAbbrev dv = String.toList "UNK") := by
  refine ⟨rfl, rfl, ?_⟩
  intro dv h
  unfold degreeAbbrev
  rw [h]
  rfl

/-- C8 witness: the amended statement applied at a degree name outside the
table. -/
theorem c8_missing_fields_witness :
    degree_map.lookup (String.toList "Master of Fine Arts") = none ∧
      degreeAbbrev (String.toList "Master of Fine Arts") =
        String.toList "UNK" :=
  ⟨by decide, c8_missing_fields_amended.2.2 _ (by decide)⟩

/-- C9 (confirmed): with offset 5 and limit 3 over a 20-row source, the
run equals the program that processes exactly the rows at source indices
5, 6 and 7 in order; the other seventeen rows and the world at their
indices do not occur on the right-hand side, so they are skipped with no
download, no world interaction and no recorded output. -/
theorem c9_offset_limit_window (uni : List Char → List Char)
    (hs : List String) (world : Nat → RowEnv)
    (r0 r1 r2 r3 r4 r5 r6 r7 r8 r9 r10 r11 r12 r13 r14 r15 r16 r17 r18 r19 :
      List (String × List Char)) :
    runLoop uni hs world 5 3 0
        [r0, r1, r2, r3, r4, r5, r6, r7, r8, r9, r10, r11, r12, r13, r14,
         r15, r16, r17, r18, r19] =
      (processRow uni hs r5 5 (world 5)).bind (fun a =>
        (processRow uni hs r6 6 (world 6)).bind (fun b =>
          (processRow uni hs r7 7 (world 7)).map (fun c => [a, b, c]))) := by
  simp only [runLoop]
  norm_num
  cases processRow uni hs r5 5 (world 5) with
  | error e => simp [Except.bind]
  | ok a =>
    cases processRow uni hs r6 6 (world 6) with
    | error e => simp [Except.bind, mapE_error]
    | ok b =>
      cases processRow uni hs r7 7 (world 7) with
      | error e => simp [Except.bind, mapE_error]
      | ok c => simp [Except.bind, mapE_ok]

/-- C10 (confirmed): the expected digest is read from the column named
exactly " MD5" (leading space, line 148): a flag of 1 in a successfully
processed row forces that column to exist and its (lowercased) value to
equal the lowercased actual digest; when " MD5" is absent — for example
when the table names its checksum column "MD5" — no recorded row can carry
flag 1. -/
theorem c10_md5_header_exact :
    (∀ (headers : List String) (line : List (List Char)) (env : RowEnv)
        (url : List Char) (n : Nat) (att : Bool),
        md5Block headers line env url = Except.ok (n, att) → n = 1 →
        ∃ i, item_index headers " MD5" = some i ∧
          verifyFlag (line.getD i []) env.actualMd5 = 1) ∧
      (∀ (headers : List String) (line : List (List Char)) (env : RowEnv)
        (url : List Char) (n : Nat) (att : Bool), " MD5" ∉ headers →
        md5Block headers line env url = Except.ok (n, att) → n = 0) := by
  constructor
  · exact md5Block_ok_one
  · intro headers line env url n att hmem hok
    rcases md5Block_flag_cases headers line env url n att hok with h0 | h1
    · exact h0
    · obtain ⟨i, hi, _⟩ := md5Block_ok_one headers line env url n att hok h1
      rw [item_index_of_not_mem headers " MD5" hmem] at hi
      cases hi

/-- C10 witness: the first part applied to a table whose checksum column
is " MD5" and matches, the second to a table carrying only "MD5" without
the leading space. -/
theorem c10_md5_header_witness :
    md5Block ["Download Link", " MD5"] [String.toList "u", String.toList "AbC"]
        ⟨true, true, true, String.toList "abc"⟩ (String.toList "u") =
      Except.ok (1, false) ∧
    (∃ i, item_index ["Download Link", " MD5"] " MD5" = some i ∧
      verifyFlag ([String.toList "u", String.toList "AbC"].getD i [])
        (String.toList "abc") = 1) ∧
    (" MD5" ∉ ["Download Link", "MD5"]) ∧
    md5Block ["Download Link", "MD5"] [String.toList "u", String.toList "abc"]
        ⟨false, false, false, []⟩ (String.toList "u") =
      Except.ok (0, true) ∧
    (0 : Nat) = 0 :=
  ⟨rfl,
    c10_md5_header_exact.1 ["Download Link", " MD5"]
      [String.toList "u", String.toList "AbC"]
      ⟨true, true, true, String.toList "abc"⟩ (String.toList "u") 1 false rfl rfl,
    by decide, rfl,
    c10_md5_header_exact.2 ["Download Link", "MD5"]
      [String.toList "u", String.toList "abc"]
      ⟨false, false, false, []⟩ (String.toList "u") 0 true (by decide) rfl⟩

end Thesis
